import Mathlib

/-!
Shallow embedding of the request-tracing core of the `tracing-otel-extra`
repository (crates `axum-otel` and `tracing-otel-extra`), covering:

- the trace-context codec (traceparent/tracestate decode and encode),
- the request-id resolver (`get_request_id`, crates/axum-otel/src/request_id.rs),
- the severity dispatcher (`dyn_event!`, crates/tracing-otel/src/macros.rs),
- the span creator (`AxumOtelSpanCreator::make_span`, crates/axum-otel/src/make_span.rs,
  and `set_otel_parent`, crates/axum-otel/src/otel.rs),
- the response/failure finalizers (`AxumOtelOnResponse::on_response`,
  crates/axum-otel/src/on_response.rs, and `AxumOtelOnFailure::on_failure`,
  crates/axum-otel/src/on_failure.rs).

HTTP header values are byte sequences (`http::HeaderValue` stores bytes); they
are embedded as `List Nat`, one entry per byte, with ASCII codes (45 is the
dash, 48 is the digit 0, 97 is the letter a, and so on).  Machine integers
(`u16` status codes, `u128` trace ids, `u64` span ids) are embedded as `Nat`
with explicit range hypotheses where they matter.
-/

/-! ### HTTP header maps

`http::HeaderMap` compares header names case-insensitively (names are
normalized to lowercase ASCII on insertion, and lookups with any casing hit
the normalized entry).  The embedding keeps names as received and makes the
lookup itself case-insensitive, which yields the same observable behavior. -/

abbrev HeaderBytes := List Nat

abbrev Headers := List (String × HeaderBytes)

def lowerName (s : String) : String :=
  String.mk (s.data.map Char.toLower)

def headerNameEq (a b : String) : Bool :=
  lowerName a == lowerName b

/-- `HeaderMap::get`: the first entry whose name matches, case-insensitively. -/
def getHeader (hs : Headers) (name : String) : Option HeaderBytes :=
  (hs.find? fun h => headerNameEq h.1 name).map fun h => h.2

/-- `HeaderMap::insert`: replace the value of an existing entry, else append. -/
def setHeader (hs : Headers) (name : String) (v : HeaderBytes) : Headers :=
  if hs.any fun h => headerNameEq h.1 name then
    hs.map fun h => if headerNameEq h.1 name then (h.1, v) else h
  else
    hs ++ [(name, v)]

/-- `HeaderValue::to_str`: succeeds exactly when every byte is visible ASCII
(32..126) or horizontal tab (9); the resulting text is the same byte
sequence read as ASCII. -/
def headerValueToStr? (v : HeaderBytes) : Option HeaderBytes :=
  if v.all fun b => decide ((32 ≤ b ∧ b < 127) ∨ b = 9) then some v else none

/-! ### Request-id resolver (crates/axum-otel/src/request_id.rs)

```rust
pub fn get_request_id(headers: &HeaderMap) -> &str {
    headers
        .get(X_REQUEST_ID)
        .or_else(|| headers.get(REQUEST_ID))
        .and_then(|value| value.to_str().ok())
        .unwrap_or_default()
}
```
-/

def get_request_id (hs : Headers) : HeaderBytes :=
  (((getHeader hs "x-request-id").orElse fun _ => getHeader hs "request-id").bind
    headerValueToStr?).getD []

/-! ### Hex digits and fixed-width hex rendering -/

/-- The numeric value of an ASCII hex digit (0-9, a-f, A-F), if it is one. -/
def hexDigitVal? (b : Nat) : Option Nat :=
  if 48 ≤ b ∧ b ≤ 57 then some (b - 48)
  else if 97 ≤ b ∧ b ≤ 102 then some (b - 87)
  else if 65 ≤ b ∧ b ≤ 70 then some (b - 55)
  else none

/-- A byte that is a lowercase hex digit (0-9 or a-f). -/
abbrev isLowerHexByte (b : Nat) : Prop :=
  (48 ≤ b ∧ b ≤ 57) ∨ (97 ≤ b ∧ b ≤ 102)

/-- A byte that is any ASCII hex digit. -/
abbrev isHexByte (b : Nat) : Prop :=
  (48 ≤ b ∧ b ≤ 57) ∨ (97 ≤ b ∧ b ≤ 102) ∨ (65 ≤ b ∧ b ≤ 70)

/-- The ASCII byte of a hex digit value, lowercase (as Rust's `{:x}`). -/
def natToHexByte (d : Nat) : Nat :=
  if d < 10 then 48 + d else 87 + d

/-- Big-endian hex parsing of a byte sequence, `none` on any non-hex byte. -/
def parseHexAux : List Nat → Nat → Option Nat
  | [], acc => some acc
  | b :: rest, acc =>
    match hexDigitVal? b with
    | some d => parseHexAux rest (acc * 16 + d)
    | none => none

def parseHex? (s : List Nat) : Option Nat :=
  parseHexAux s 0

/-- Fixed-width lowercase hex rendering, most significant digit first (the
canonical rendering of `TraceId`/`SpanId`/flag bytes: `{:032x}`, `{:016x}`,
`{:02x}`). -/
def renderHex : Nat → Nat → List Nat
  | 0, _ => []
  | w + 1, n => renderHex w (n / 16) ++ [natToHexByte (n % 16)]

/-- Split a byte sequence at every occurrence of `sep` (like `str::split`). -/
def splitOnByte (sep : Nat) : List Nat → List (List Nat)
  | [] => [[]]
  | b :: rest =>
    match splitOnByte sep rest with
    | [] => [[]]
    | seg :: segs => if b = sep then [] :: seg :: segs else (b :: seg) :: segs

/-! ### Trace context codec

The repository functions `extract_context_from_headers` and
`inject_context_into_request` (crates/tracing-otel/src/trace/http.rs) delegate
to the process-wide W3C text-map propagator, which is an external collaborator
(the tests install `TraceContextPropagator`).  Its parsing/encoding rules are
not part of src/, so they are modelled from the spec (section 4.1). -/

structure PropagatedContext where
  trace_id : Nat
  span_id : Nat
  flags : Nat
  trace_state : List (HeaderBytes × HeaderBytes)
  valid : Bool
  deriving DecidableEq, Repr

def invalidContext : PropagatedContext :=
  ⟨0, 0, 0, [], false⟩

/-- Modelled from the spec: `Decode(headerValue) → PropagatedContext` of the
trace-context codec, which is the W3C propagator installed via
`opentelemetry::global` and not part of src/.  Input format
`<2-hex version>-<32-hex trace id>-<16-hex span id>-<2-hex flags>`; the result
is `valid = false` for wrong segment count, non-hex characters, wrong segment
lengths, an all-zero trace id, an all-zero span id, or a version other than
`00`. -/
def decodeTraceparent (s : HeaderBytes) : PropagatedContext :=
  match splitOnByte 45 s with
  | [v, t, p, f] =>
    if v = [48, 48] ∧ t.length = 32 ∧ p.length = 16 ∧ f.length = 2 then
      match parseHex? t, parseHex? p, parseHex? f with
      | some tid, some sid, some fl =>
        if tid ≠ 0 ∧ sid ≠ 0 then ⟨tid, sid, fl, [], true⟩ else invalidContext
      | _, _, _ => invalidContext
    else invalidContext
  | _ => invalidContext

def trimSpaces (l : HeaderBytes) : HeaderBytes :=
  ((l.dropWhile fun b => b == 32).reverse.dropWhile fun b => b == 32).reverse

/-- Split a byte sequence at the first 61 (the equals sign), if any. -/
def splitFirstEqSign : HeaderBytes → Option (HeaderBytes × HeaderBytes)
  | [] => none
  | b :: rest =>
    if b = 61 then some ([], rest)
    else (splitFirstEqSign rest).map fun pr => (b :: pr.1, pr.2)

/-- Modelled from the spec: `DecodeState(headerValue) → TraceState`: split on
the comma, then each segment on its first equals sign; segments that fail to
split are skipped; whitespace around keys/values is trimmed; order kept. -/
def decodeTraceState (v : HeaderBytes) : List (HeaderBytes × HeaderBytes) :=
  (splitOnByte 44 v).filterMap fun seg =>
    (splitFirstEqSign seg).map fun pr => (trimSpaces pr.1, trimSpaces pr.2)

/-- The traceparent wire format: version, trace id, span id and flags
segments joined by dashes (byte 45). -/
def mkTraceparent (t p f : HeaderBytes) : HeaderBytes :=
  [48, 48] ++ 45 :: (t ++ 45 :: (p ++ 45 :: f))

/-- Modelled from the spec: the traceparent rendering of `Encode`: always
version `00`, segments dash-separated, ids and flags in fixed-width lowercase
hex. -/
def encodeTraceparent (pc : PropagatedContext) : HeaderBytes :=
  mkTraceparent (renderHex 32 pc.trace_id) (renderHex 16 pc.span_id)
    (renderHex 2 pc.flags)

/-- Modelled from the spec: the tracestate rendering of `Encode`:
comma-joined `key=value` pairs in original order. -/
def encodeTraceState (ts : List (HeaderBytes × HeaderBytes)) : HeaderBytes :=
  List.intercalate [44] (ts.map fun pr => pr.1 ++ 61 :: pr.2)

/-- An `opentelemetry::Context`, reduced to the datum this core reads from
it: the span context it carries, if any (`Context::current()` with no active
span carries none). -/
structure TraceContext where
  span : Option PropagatedContext
  deriving DecidableEq, Repr

def contextWithoutSpan : TraceContext :=
  ⟨none⟩

/-- `extract_context_from_headers` (crates/tracing-otel/src/trace/http.rs):
run the propagator's extraction over the header map.  A missing or
undecodable traceparent yields a context with no remote span; a decodable one
yields the remote span context, with the trace state taken from the
tracestate header. -/
def extract_context_from_headers (hs : Headers) : TraceContext :=
  match getHeader hs "traceparent" with
  | none => ⟨none⟩
  | some v =>
    let pc := decodeTraceparent v
    if pc.valid then
      ⟨some { pc with
          trace_state :=
            match getHeader hs "tracestate" with
            | some ts => decodeTraceState ts
            | none => [] }⟩
    else ⟨none⟩

/-- `inject_context_into_request` (crates/tracing-otel/src/trace/http.rs): run
the propagator's injection over the request's header map.  With no span in the
context (or an invalid one) the headers are untouched; otherwise the
traceparent and tracestate headers are written. -/
def inject_context_into_request (cx : TraceContext) (req : Headers) : Headers :=
  match cx.span with
  | none => req
  | some pc =>
    if pc.valid then
      setHeader (setHeader req "traceparent" (encodeTraceparent pc))
        "tracestate" (encodeTraceState pc.trace_state)
    else req

/-! ### Severity dispatcher (crates/tracing-otel/src/macros.rs)

`tracing::Level`, the closed 5-valued severity enum, and the `dyn_event!`
expansion: a 5-way match on the runtime level where each arm is a call of
`tracing::event!` with that level as a compile-time constant, forwarding the
same field set. -/

inductive Level where
  | error
  | warn
  | info
  | debug
  | trace
  deriving DecidableEq, Repr

abbrev EventFields := List (String × String)

structure Event where
  level : Level
  fields : EventFields
  deriving DecidableEq, Repr

/-- `tracing::event!(LEVEL, fields...)` at a compile-time level: one event is
emitted, carrying exactly the given fields. -/
def tracing_event (lvl : Level) (fs : EventFields) : List Event :=
  [⟨lvl, fs⟩]

/-- The `dyn_event!` expansion: a 5-way match, one static emission per arm. -/
def dyn_event (lvl : Level) (fs : EventFields) : List Event :=
  match lvl with
  | .error => tracing_event .error fs
  | .warn => tracing_event .warn fs
  | .info => tracing_event .info fs
  | .debug => tracing_event .debug fs
  | .trace => tracing_event .trace fs

/-- Modelled from the spec: the single runtime-parameterized emission that the
5-way static dispatch is claimed to be equivalent to (spec sections 4.3
and 9). -/
def runtimeSeverityEmit (lvl : Level) (fs : EventFields) : List Event :=
  [⟨lvl, fs⟩]

/-! ### Span model

A `tracing` span as populated by `AxumOtelSpanCreator::make_span`: the fixed
attribute set, the OTEL status field (a recordable field, `none` while
`Empty`/unset), the correlation id, and the recorded trace identity. -/

structure Span where
  level : Level
  otel_name : String
  otel_kind : String
  http_method : Option String
  http_route : Option String
  http_client_ip : Option String
  http_host : Option HeaderBytes
  http_user_agent : Option HeaderBytes
  http_scheme : Option String
  http_target : Option String
  http_versions : String
  http_status_code : Option Nat
  otel_status_code : Option String
  request_id : HeaderBytes
  trace_id : Option HeaderBytes
  parent_span_id : Option Nat
  deriving DecidableEq, Repr

/-- The data `make_span` reads off an `http::Request`: the method, the
`MatchedPath` extension when axum matched a route, the header map, and the
remaining attribute sources. -/
structure Request where
  method : String
  matched_path : Option String
  headers : Headers
  version : String
  scheme : Option String
  path_and_query : Option String
  client_ip : Option String
  deriving DecidableEq, Repr

/-- The part of the span `set_otel_parent` (crates/axum-otel/src/otel.rs)
writes: the recorded `trace_id` field (rendered as 32 lowercase hex
characters by `TraceId::to_string`) and the parent span. -/
structure ParentData where
  trace_id : HeaderBytes
  parent_span_id : Option Nat
  deriving DecidableEq, Repr

/-- `set_otel_parent`: extract the remote context; when it carries a valid
remote span context, record its trace id and set it as the parent; otherwise
record the span's own trace id (the one freshly generated for this request by
the OTel layer, passed here as `ownTraceId` - the generator is an external
collaborator) and leave the span a root. -/
def set_otel_parent (ownTraceId : Nat) (cx : TraceContext) : ParentData :=
  match cx.span with
  | some pc =>
    if pc.valid then ⟨renderHex 32 pc.trace_id, some pc.span_id⟩
    else ⟨renderHex 32 ownTraceId, none⟩
  | none => ⟨renderHex 32 ownTraceId, none⟩

/-! ### Span creator (crates/axum-otel/src/make_span.rs) -/

structure AxumOtelSpanCreator where
  level : Level
  deriving DecidableEq, Repr

def AxumOtelSpanCreator.new : AxumOtelSpanCreator :=
  ⟨.trace⟩

def AxumOtelSpanCreator.default : AxumOtelSpanCreator :=
  AxumOtelSpanCreator.new

/-- The span built by one `make_span!(LEVEL)` arm: every attribute from the
request, the span name, the status fields `Empty`, the resolved request id,
and - via `set_otel_parent`, which runs right after the span is created - the
trace identity. -/
def make_span_with_level (lvl : Level) (req : Request) (freshTraceId : Nat) :
    Span :=
  let parent := set_otel_parent freshTraceId (extract_context_from_headers req.headers)
  { level := lvl
    otel_name :=
      match req.matched_path with
      | none => req.method
      | some route => req.method ++ " " ++ route
    otel_kind := "Server"
    http_method := some req.method
    http_route := req.matched_path
    http_client_ip := req.client_ip
    http_host := (getHeader req.headers "host").bind headerValueToStr?
    http_user_agent := (getHeader req.headers "user-agent").bind headerValueToStr?
    http_scheme := req.scheme
    http_target := req.path_and_query
    http_versions := req.version
    http_status_code := none
    otel_status_code := none
    request_id := get_request_id req.headers
    trace_id := some parent.trace_id
    parent_span_id := parent.parent_span_id }

/-- `AxumOtelSpanCreator::make_span`: the 5-way match on `self.level`, each
arm invoking the `make_span!` expansion at that compile-time level. -/
def AxumOtelSpanCreator.make_span (self : AxumOtelSpanCreator) (req : Request)
    (freshTraceId : Nat) : Span :=
  match self.level with
  | .error => make_span_with_level .error req freshTraceId
  | .warn => make_span_with_level .warn req freshTraceId
  | .info => make_span_with_level .info req freshTraceId
  | .debug => make_span_with_level .debug req freshTraceId
  | .trace => make_span_with_level .trace req freshTraceId

/-! ### Response finalizer (crates/axum-otel/src/on_response.rs) -/

structure AxumOtelOnResponse where
  level : Level
  deriving DecidableEq, Repr

def AxumOtelOnResponse.default : AxumOtelOnResponse :=
  ⟨.debug⟩

def AxumOtelOnResponse.new : AxumOtelOnResponse :=
  AxumOtelOnResponse.default

/-- `AxumOtelOnResponse::on_response`: record the numeric status code and the
OTEL status `OK` on the span, then emit the closing event at the configured
level. -/
def AxumOtelOnResponse.on_response (self : AxumOtelOnResponse) (status : Nat)
    (latency_ms : Nat) (span : Span) : Span × List Event :=
  ({ span with http_status_code := some status, otel_status_code := some "OK" },
    dyn_event self.level
      [("latency", toString latency_ms), ("status", toString status),
        ("message", "finished processing request")])

/-! ### Failure finalizer (crates/axum-otel/src/on_failure.rs) -/

/-- `tower_http::classify::ServerErrorsFailureClass`: the failure taxonomy
handed to `on_failure` - either an HTTP status code or an error description. -/
inductive ServerErrorsFailureClass where
  | statusCode (code : Nat)
  | failure (message : String)
  deriving DecidableEq, Repr

/-- `http::StatusCode::is_server_error`: the code is within 500..=599.
(`http::StatusCode` itself holds any value in 100..=999.) -/
def StatusCode.is_server_error (code : Nat) : Bool :=
  decide (500 ≤ code ∧ code ≤ 599)

/-- The `Display` rendering of `ServerErrorsFailureClass` used by the
`classification = %failure_classification` event field. -/
def failureClassDisplay : ServerErrorsFailureClass → String
  | .statusCode code => "Status code: " ++ toString code
  | .failure message => "Error: " ++ message

structure AxumOtelOnFailure where
  level : Level
  deriving DecidableEq, Repr

def AxumOtelOnFailure.default : AxumOtelOnFailure :=
  ⟨.error⟩

def AxumOtelOnFailure.new : AxumOtelOnFailure :=
  AxumOtelOnFailure.default

/-- `AxumOtelOnFailure::on_failure`: emit the failure event at the configured
level, then record OTEL status `ERROR` exactly when the classification is a
server-error status code; every other classification leaves the span
untouched. -/
def AxumOtelOnFailure.on_failure (self : AxumOtelOnFailure)
    (fc : ServerErrorsFailureClass) (latency_ms : Nat) (span : Span) :
    Span × List Event :=
  let events := dyn_event self.level
    [("classification", failureClassDisplay fc),
      ("latency", toString latency_ms), ("message", "response failed")]
  (match fc with
    | .statusCode code =>
      if StatusCode.is_server_error code then
        { span with otel_status_code := some "ERROR" }
      else span
    | .failure _ => span,
    events)

/-! ### Codec lemmas -/

theorem hexDigitVal_lt {b d : Nat} (h : hexDigitVal? b = some d) : d < 16 := by
  simp only [hexDigitVal?] at h
  split at h
  · cases h
    omega
  · split at h
    · cases h
      omega
    · split at h
      · cases h
        omega
      · cases h

theorem hexVal_of_lower {b : Nat} (h : isLowerHexByte b) :
    ∃ d, hexDigitVal? b = some d ∧ d < 16 ∧ natToHexByte d = b := by
  rcases h with ⟨h1, h2⟩ | ⟨h1, h2⟩
  · refine ⟨b - 48, ?_, by omega, ?_⟩
    · simp only [hexDigitVal?]
      rw [if_pos ⟨h1, h2⟩]
    · simp only [natToHexByte]
      rw [if_pos (by omega)]
      omega
  · refine ⟨b - 87, ?_, by omega, ?_⟩
    · simp only [hexDigitVal?]
      rw [if_neg (by omega), if_pos ⟨h1, h2⟩]
    · simp only [natToHexByte]
      rw [if_neg (by omega)]
      omega

theorem natToHexByte_lower {d : Nat} (h : d < 16) :
    isLowerHexByte (natToHexByte d) := by
  simp only [natToHexByte]
  split <;> [left; right] <;> omega

theorem isLowerHexByte_ne_dash {b : Nat} (h : isLowerHexByte b) : b ≠ 45 := by
  rcases h with ⟨h1, _⟩ | ⟨h1, _⟩ <;> omega

theorem parseHexAux_append (l1 l2 : List Nat) (acc : Nat) :
    parseHexAux (l1 ++ l2) acc =
      match parseHexAux l1 acc with
      | some m => parseHexAux l2 m
      | none => none := by
  induction l1 generalizing acc with
  | nil => simp [parseHexAux]
  | cons b rest ih =>
    simp only [List.cons_append, parseHexAux]
    cases hexDigitVal? b with
    | none => simp
    | some d => simp [ih]

theorem parseHexAux_isSome {l : List Nat} (h : ∀ b ∈ l, isLowerHexByte b)
    (acc : Nat) : ∃ m, parseHexAux l acc = some m := by
  induction l generalizing acc with
  | nil => exact ⟨acc, rfl⟩
  | cons b rest ih =>
    obtain ⟨d, hd, -, -⟩ := hexVal_of_lower (h b (by simp))
    simp only [parseHexAux, hd]
    exact ih (fun x hx => h x (by simp [hx])) _

theorem renderHex_length (w n : Nat) : (renderHex w n).length = w := by
  induction w generalizing n with
  | zero => rfl
  | succ k ih => simp [renderHex, ih]

theorem renderHex_lower (w n : Nat) : ∀ b ∈ renderHex w n, isLowerHexByte b := by
  induction w generalizing n with
  | zero => simp [renderHex]
  | succ k ih =>
    intro b hb
    simp only [renderHex, List.mem_append, List.mem_singleton] at hb
    rcases hb with hb | hb
    · exact ih (n / 16) b hb
    · subst hb
      exact natToHexByte_lower (Nat.mod_lt n (by omega))

theorem renderHex_parseHex : ∀ (l : List Nat), (∀ b ∈ l, isLowerHexByte b) →
    ∀ m, parseHex? l = some m → renderHex l.length m = l := by
  intro l
  induction l using List.reverseRecOn with
  | nil =>
    intro _ m hp
    cases hp
    rfl
  | append_singleton t b ih =>
    intro h m hp
    obtain ⟨d, hd, hdlt, hdb⟩ := hexVal_of_lower (h b (by simp))
    have ht : ∀ x ∈ t, isLowerHexByte x := fun x hx => h x (by simp [hx])
    obtain ⟨mt, hmt⟩ := parseHexAux_isSome ht 0
    unfold parseHex? at hp
    rw [parseHexAux_append, hmt] at hp
    simp only [parseHexAux, hd] at hp
    cases hp
    have hdiv : (mt * 16 + d) / 16 = mt := by omega
    have hmod : (mt * 16 + d) % 16 = d := by omega
    simp only [List.length_append, List.length_singleton, renderHex, hdiv, hmod,
      hdb, ih ht mt hmt]

theorem renderHex_zero (w : Nat) : renderHex w 0 = List.replicate w 48 := by
  induction w with
  | zero => rfl
  | succ k ih =>
    simp only [renderHex, Nat.zero_div, Nat.zero_mod, ih]
    rw [List.replicate_succ']
    rfl

theorem renderHex_replicate_mod : ∀ (w n : Nat),
    renderHex w n = List.replicate w 48 → n % 16 ^ w = 0 := by
  intro w
  induction w with
  | zero =>
    intro n _
    simp [Nat.mod_one]
  | succ k ih =>
    intro n h
    rw [List.replicate_succ'] at h
    simp only [renderHex] at h
    have hlen : (renderHex k (n / 16)).length = (List.replicate k 48).length := by
      simp [renderHex_length]
    obtain ⟨h1, h2⟩ := List.append_inj h hlen
    have hb : natToHexByte (n % 16) = 48 := by
      simpa using h2
    have h16 : n % 16 = 0 := by
      by_cases hc : n % 16 < 10
      · simp only [natToHexByte, if_pos hc] at hb
        omega
      · simp only [natToHexByte, if_neg hc] at hb
        omega
    obtain ⟨a, ha⟩ := Nat.dvd_of_mod_eq_zero (ih (n / 16) h1)
    have hdm := Nat.div_add_mod n 16
    have hpow : 16 * (16 ^ k * a) = 16 ^ (k + 1) * a := by ring
    have hn : n = 16 ^ (k + 1) * a := by
      rw [h16, ha] at hdm
      omega
    rw [hn]
    exact Nat.mul_mod_right _ _

theorem renderHex_ne_replicate {n : Nat} (h0 : n ≠ 0) (hlt : n < 16 ^ 32) :
    renderHex 32 n ≠ List.replicate 32 48 := by
  intro h
  have hz := renderHex_replicate_mod 32 n h
  rw [Nat.mod_eq_of_lt hlt] at hz
  exact h0 hz

theorem two_pow_128_eq : (2 : Nat) ^ 128 = 16 ^ 32 := by
  norm_num

theorem splitOnByte_ne_nil (sep : Nat) (l : List Nat) : splitOnByte sep l ≠ [] := by
  cases l with
  | nil => simp [splitOnByte]
  | cons b rest =>
    simp only [splitOnByte]
    split
    · simp
    · split <;> simp

theorem splitOnByte_no_sep {sep : Nat} : ∀ {l : List Nat}, (∀ b ∈ l, b ≠ sep) →
    splitOnByte sep l = [l] := by
  intro l
  induction l with
  | nil => intro _; rfl
  | cons b rest ih =>
    intro h
    simp only [splitOnByte, ih (fun x hx => h x (by simp [hx]))]
    rw [if_neg (h b (by simp))]

theorem splitOnByte_append {sep : Nat} : ∀ {a : List Nat}, (∀ b ∈ a, b ≠ sep) →
    ∀ (r : List Nat), splitOnByte sep (a ++ sep :: r) = a :: splitOnByte sep r := by
  intro a
  induction a with
  | nil =>
    intro _ r
    simp only [List.nil_append, splitOnByte]
    rcases h : splitOnByte sep r with _ | ⟨seg, segs⟩
    · exact absurd h (splitOnByte_ne_nil sep r)
    · simp
  | cons b rest ih =>
    intro h r
    have hrest := ih (fun x hx => h x (by simp [hx])) r
    simp only [List.cons_append, splitOnByte, List.append_eq, hrest]
    rw [if_neg (h b (by simp))]

theorem headerNameEq_refl (s : String) : headerNameEq s s = true := by
  simp [headerNameEq]

theorem headerNameEq_tp_ts : headerNameEq "traceparent" "tracestate" = false := by
  decide

/-- Decoding a well-formed traceparent whose segments are lowercase hex and
whose ids are not all-zero yields a valid context whose components render
back to the original segments. -/
theorem decodeTraceparent_mk {t p f : HeaderBytes}
    (ht : t.length = 32) (hp : p.length = 16) (hf : f.length = 2)
    (hlt : ∀ b ∈ t, isLowerHexByte b) (hlp : ∀ b ∈ p, isLowerHexByte b)
    (hlf : ∀ b ∈ f, isLowerHexByte b)
    (ht0 : t ≠ List.replicate 32 48) (hp0 : p ≠ List.replicate 16 48) :
    ∃ tid sid fl,
      decodeTraceparent (mkTraceparent t p f) = ⟨tid, sid, fl, [], true⟩ ∧
        renderHex 32 tid = t ∧ renderHex 16 sid = p ∧ renderHex 2 fl = f := by
  obtain ⟨tid, htid⟩ := parseHexAux_isSome hlt 0
  obtain ⟨sid, hsid⟩ := parseHexAux_isSome hlp 0
  obtain ⟨fl, hfl⟩ := parseHexAux_isSome hlf 0
  have hrt : renderHex 32 tid = t := by
    have h := renderHex_parseHex t hlt tid htid
    rwa [ht] at h
  have hrp : renderHex 16 sid = p := by
    have h := renderHex_parseHex p hlp sid hsid
    rwa [hp] at h
  have hrf : renderHex 2 fl = f := by
    have h := renderHex_parseHex f hlf fl hfl
    rwa [hf] at h
  have htid0 : tid ≠ 0 := by
    intro h0
    apply ht0
    rw [← hrt, h0, renderHex_zero]
  have hsid0 : sid ≠ 0 := by
    intro h0
    apply hp0
    rw [← hrp, h0, renderHex_zero]
  have hsplit : splitOnByte 45 (mkTraceparent t p f) = [[48, 48], t, p, f] := by
    unfold mkTraceparent
    rw [splitOnByte_append (by decide),
      splitOnByte_append (fun b hb => isLowerHexByte_ne_dash (hlt b hb)),
      splitOnByte_append (fun b hb => isLowerHexByte_ne_dash (hlp b hb)),
      splitOnByte_no_sep (fun b hb => isLowerHexByte_ne_dash (hlf b hb))]
  refine ⟨tid, sid, fl, ?_, hrt, hrp, hrf⟩
  simp only [decodeTraceparent, hsplit]
  rw [if_pos (by simp [ht, hp, hf])]
  simp only [parseHex?, htid, hsid, hfl]
  rw [if_pos ⟨htid0, hsid0⟩]

/-- Extraction only ever exposes a valid remote span context. -/
theorem extract_span_valid {hs : Headers} {pc : PropagatedContext}
    (h : (extract_context_from_headers hs).span = some pc) : pc.valid = true := by
  simp only [extract_context_from_headers] at h
  split at h
  · cases h
  · split at h
    · next hval =>
      simp only [Option.some.injEq] at h
      rw [← h]
      exact hval
    · cases h

/-! ### Sample data for concrete instantiations -/

def sampleSpan : Span :=
  { level := .trace, otel_name := "GET", otel_kind := "Server",
    http_method := some "GET", http_route := none, http_client_ip := none,
    http_host := none, http_user_agent := none, http_scheme := none,
    http_target := none, http_versions := "HTTP/1.1", http_status_code := none,
    otel_status_code := none, request_id := [], trace_id := none,
    parent_span_id := none }

/-- A request whose traceparent header holds the bytes of `"invalid"`. -/
def sampleInvalidRequest : Request :=
  { method := "GET", matched_path := none,
    headers := [("traceparent", [105, 110, 118, 97, 108, 105, 100])],
    version := "HTTP/1.1", scheme := none, path_and_query := none,
    client_ip := none }

/-! ### Claims -/

/-- C1, amended: `AxumOtelOnFailure::on_failure` sets the span's
`otel.status_code` to `ERROR` exactly when the classification is
`StatusCode(s)` with `500 ≤ s ≤ 599` (`StatusCode::is_server_error`); for a
status code outside 500..=599 and for a non-status error description the span
is left unchanged. -/
theorem onFailure_sets_error_iff_server_error (self : AxumOtelOnFailure)
    (fc : ServerErrorsFailureClass) (latency_ms : Nat) (span : Span) :
    (∀ code, fc = .statusCode code → 500 ≤ code → code ≤ 599 →
        (self.on_failure fc latency_ms span).1 =
          { span with otel_status_code := some "ERROR" }) ∧
    (∀ code, fc = .statusCode code → ¬(500 ≤ code ∧ code ≤ 599) →
        (self.on_failure fc latency_ms span).1 = span) ∧
    (∀ message, fc = .failure message →
        (self.on_failure fc latency_ms span).1 = span) := by
  refine ⟨?_, ?_, ?_⟩
  · rintro code rfl h1 h2
    simp only [AxumOtelOnFailure.on_failure]
    rw [if_pos (by simp only [StatusCode.is_server_error, decide_eq_true_eq]; omega)]
  · rintro code rfl hno
    simp only [AxumOtelOnFailure.on_failure]
    rw [if_neg (by simp only [StatusCode.is_server_error, decide_eq_true_eq]; omega)]
  · rintro message rfl
    rfl

/-- C1 witness: `StatusCode(503)` records `ERROR`; `StatusCode(404)` leaves
the span untouched. -/
theorem onFailure_server_error_examples :
    (AxumOtelOnFailure.new.on_failure (.statusCode 503) 7 sampleSpan).1 =
      { sampleSpan with otel_status_code := some "ERROR" } ∧
    (AxumOtelOnFailure.new.on_failure (.statusCode 404) 7 sampleSpan).1 =
      sampleSpan :=
  ⟨(onFailure_sets_error_iff_server_error AxumOtelOnFailure.new
      (.statusCode 503) 7 sampleSpan).1 503 rfl (by omega) (by omega),
    (onFailure_sets_error_iff_server_error AxumOtelOnFailure.new
      (.statusCode 404) 7 sampleSpan).2.1 404 rfl (by omega)⟩

/-- C1 counterexample: `600` is a representable `http::StatusCode`
(100..=999) with `600 ≥ 500`, yet `on_failure` does not set the span status
to `ERROR` for it (`is_server_error` is false above 599), so "status is set
to Error iff the classification is StatusCode(s) with s ≥ 500" fails. -/
theorem onFailure_status_600_leaves_span_unchanged :
    (100 ≤ 600 ∧ 600 ≤ 999) ∧ 500 ≤ 600 ∧
    Span.otel_status_code
        (AxumOtelOnFailure.new.on_failure (.statusCode 600) 7 sampleSpan).1 ≠
      some "ERROR" ∧
    (AxumOtelOnFailure.new.on_failure (.statusCode 600) 7 sampleSpan).1 =
      sampleSpan := by
  refine ⟨by omega, by omega, ?_, ?_⟩ <;> decide

/-- C3: `AxumOtelOnResponse::on_response` records the numeric status code in
`http.status_code` and sets `otel.status_code` to `OK` unconditionally - for
every status code (4xx and 5xx included), latency and span; it never sets
`ERROR`. -/
theorem onResponse_records_status_and_ok (self : AxumOtelOnResponse)
    (status latency_ms : Nat) (span : Span) :
    (self.on_response status latency_ms span).1.http_status_code = some status ∧
    (self.on_response status latency_ms span).1.otel_status_code = some "OK" ∧
    (self.on_response status latency_ms span).1.otel_status_code ≠
      some "ERROR" :=
  ⟨rfl, rfl, by
    show (some "OK" : Option String) ≠ some "ERROR"
    decide⟩

/-- C4: `get_request_id` scans `x-request-id` then `request-id`
(case-insensitive lookups), returns the first present header's value coerced
to text, and returns the empty string when neither is present - it never
fails. -/
theorem request_id_precedence (hs : Headers) :
    (∀ v s, getHeader hs "x-request-id" = some v →
        headerValueToStr? v = some s → get_request_id hs = s) ∧
    (getHeader hs "x-request-id" = none →
      ∀ v s, getHeader hs "request-id" = some v →
        headerValueToStr? v = some s → get_request_id hs = s) ∧
    (getHeader hs "x-request-id" = none → getHeader hs "request-id" = none →
        get_request_id hs = []) := by
  refine ⟨?_, ?_, ?_⟩
  · intro v s hv hcoerce
    simp [get_request_id, hv, Option.orElse, hcoerce]
  · intro hx v s hv hcoerce
    simp [get_request_id, hx, hv, Option.orElse, hcoerce]
  · intro hx hr
    simp [get_request_id, hx, hr, Option.orElse]

/-- C4 witness: with both `x-request-id: "a"` (bytes `[97]`, even with mixed
casing on the wire) and `request-id: "b"` (bytes `[98]`) present the resolver
returns `"a"`; with no matching headers it returns the empty string. -/
theorem request_id_precedence_examples :
    get_request_id [("X-Request-Id", [97]), ("request-id", [98])] = [97] ∧
    get_request_id [] = [] :=
  ⟨(request_id_precedence [("X-Request-Id", [97]), ("request-id", [98])]).1
      [97] [97] (by decide) (by decide),
    (request_id_precedence []).2.2 rfl rfl⟩

/-- C9: when `x-request-id` is present but its value fails `to_str`
conversion, `get_request_id` returns the empty string without falling back to
`request-id`: precedence is decided by presence before value validity. -/
theorem request_id_invalid_value_no_fallback (hs : Headers) (v : HeaderBytes)
    (hv : getHeader hs "x-request-id" = some v)
    (hbad : headerValueToStr? v = none) : get_request_id hs = [] := by
  simp [get_request_id, hv, Option.orElse, hbad]

/-- C9 witness: `x-request-id` holding the non-visible-ASCII byte 0 yields
the empty string even though `request-id: "b"` is present and valid. -/
theorem request_id_invalid_value_example :
    get_request_id [("x-request-id", [0]), ("request-id", [98])] = [] :=
  request_id_invalid_value_no_fallback
    [("x-request-id", [0]), ("request-id", [98])] [0] (by decide) (by decide)

/-- C6: injecting a context that has no current span leaves the request's
header map entirely unchanged - neither a traceparent nor a tracestate
header (and in particular no empty-valued header) is added. -/
theorem inject_without_span_leaves_headers_unchanged (req : Headers) :
    inject_context_into_request contextWithoutSpan req = req :=
  rfl

/-- C7: the span name produced by `make_span` is the method alone when no
`MatchedPath` is present, and `"METHOD ROUTE"` (single space) when a route
matched. -/
theorem make_span_name (self : AxumOtelSpanCreator) (req : Request)
    (freshTraceId : Nat) :
    (self.make_span req freshTraceId).otel_name =
      match req.matched_path with
      | none => req.method
      | some route => req.method ++ " " ++ route := by
  obtain ⟨lvl⟩ := self
  cases lvl <;> rfl

/-- C8: the 5-way static severity dispatch (`dyn_event!`, and the level match
in `make_span`) reaches exactly the one static path for the given level,
emits exactly one event carrying the forwarded field set unchanged, and is
equivalent to a single runtime-parameterized emission. -/
theorem severity_dispatch_equivalence (lvl : Level) (fs : EventFields)
    (self : AxumOtelSpanCreator) (req : Request) (freshTraceId : Nat) :
    dyn_event lvl fs = runtimeSeverityEmit lvl fs ∧
    dyn_event lvl fs = [⟨lvl, fs⟩] ∧
    (dyn_event lvl fs).length = 1 ∧
    self.make_span req freshTraceId =
      make_span_with_level self.level req freshTraceId := by
  obtain ⟨l⟩ := self
  cases lvl <;> cases l <;> exact ⟨rfl, rfl, rfl, rfl⟩

/-- C10: the default levels are TRACE for the span creator, DEBUG for the
response finalizer and ERROR for the failure finalizer, and for each type
`new()` equals `Default::default()`. -/
theorem default_levels :
    AxumOtelSpanCreator.new.level = Level.trace ∧
    AxumOtelSpanCreator.default = AxumOtelSpanCreator.new ∧
    AxumOtelOnResponse.new.level = Level.debug ∧
    AxumOtelOnResponse.new = AxumOtelOnResponse.default ∧
    AxumOtelOnFailure.new.level = Level.error ∧
    AxumOtelOnFailure.new = AxumOtelOnFailure.default :=
  ⟨rfl, rfl, rfl, rfl, rfl, rfl⟩

/-- C2, amended: for every traceparent value
`00-<32 lowercase hex>-<16 lowercase hex>-<2 lowercase hex>` whose trace id
and span id segments are not all zero, extracting the context from the
headers and injecting it into an outbound request reproduces the identical
traceparent string.  (The flags segment must be lowercase as well: uppercase
hex digits are accepted by decoding but re-encoded lowercase, see the
counterexample.) -/
theorem traceparent_decode_encode_roundtrip (t p f : HeaderBytes)
    (ht : t.length = 32) (hp : p.length = 16) (hf : f.length = 2)
    (hlt : ∀ b ∈ t, isLowerHexByte b) (hlp : ∀ b ∈ p, isLowerHexByte b)
    (hlf : ∀ b ∈ f, isLowerHexByte b)
    (ht0 : t ≠ List.replicate 32 48) (hp0 : p ≠ List.replicate 16 48) :
    getHeader
      (inject_context_into_request
        (extract_context_from_headers [("traceparent", mkTraceparent t p f)])
        [])
      "traceparent" = some (mkTraceparent t p f) := by
  obtain ⟨tid, sid, fl, hdec, hrt, hrp, hrf⟩ :=
    decodeTraceparent_mk ht hp hf hlt hlp hlf ht0 hp0
  have hget : getHeader [("traceparent", mkTraceparent t p f)] "traceparent" =
      some (mkTraceparent t p f) := rfl
  have hts : getHeader [("traceparent", mkTraceparent t p f)] "tracestate" =
      none := rfl
  have hex : extract_context_from_headers
      [("traceparent", mkTraceparent t p f)] =
      ⟨some ⟨tid, sid, fl, [], true⟩⟩ := by
    simp only [extract_context_from_headers, hget, hts, hdec]
    rw [if_pos trivial]
  rw [hex]
  show some (encodeTraceparent ⟨tid, sid, fl, [], true⟩) =
    some (mkTraceparent t p f)
  simp only [encodeTraceparent]
  rw [hrt, hrp, hrf]

/-- C2 witness: the roundtrip at the concrete traceparent
`00-00000000000000000000000000000001-0000000000000001-01`. -/
theorem traceparent_roundtrip_example :
    getHeader
      (inject_context_into_request
        (extract_context_from_headers
          [("traceparent",
            mkTraceparent (List.replicate 31 48 ++ [49])
              (List.replicate 15 48 ++ [49]) [48, 49])])
        [])
      "traceparent" =
      some (mkTraceparent (List.replicate 31 48 ++ [49])
        (List.replicate 15 48 ++ [49]) [48, 49]) :=
  traceparent_decode_encode_roundtrip
    (List.replicate 31 48 ++ [49]) (List.replicate 15 48 ++ [49]) [48, 49]
    (by decide) (by decide) (by decide) (by decide) (by decide) (by decide)
    (by decide) (by decide)

/-- C2 counterexample: the traceparent
`00-00000000000000000000000000000001-0000000000000001-0A` has 32 lowercase
hex trace-id bytes (not all zero), 16 lowercase hex span-id bytes (not all
zero) and a 2-hex-digit flags segment (`0A`, with an uppercase digit, byte
65); it decodes as valid, but decode-then-encode renders the flags lowercase
(`0a`), so the reproduced traceparent differs from the original. -/
theorem traceparent_roundtrip_uppercase_flags_fails :
    ((List.replicate 31 48 ++ [49]).length = 32 ∧
      (∀ b ∈ List.replicate 31 (48 : Nat) ++ [49], isLowerHexByte b) ∧
      List.replicate 31 48 ++ [49] ≠ List.replicate 32 48) ∧
    ((List.replicate 15 48 ++ [49]).length = 16 ∧
      (∀ b ∈ List.replicate 15 (48 : Nat) ++ [49], isLowerHexByte b) ∧
      List.replicate 15 48 ++ [49] ≠ List.replicate 16 48) ∧
    ([48, 65].length = 2 ∧ (∀ b ∈ [(48 : Nat), 65], isHexByte b)) ∧
    (decodeTraceparent
        (mkTraceparent (List.replicate 31 48 ++ [49])
          (List.replicate 15 48 ++ [49]) [48, 65])).valid = true ∧
    getHeader
      (inject_context_into_request
        (extract_context_from_headers
          [("traceparent",
            mkTraceparent (List.replicate 31 48 ++ [49])
              (List.replicate 15 48 ++ [49]) [48, 65])])
        [])
      "traceparent" ≠
      some (mkTraceparent (List.replicate 31 48 ++ [49])
        (List.replicate 15 48 ++ [49]) [48, 65]) := by
  decide

/-- C5: when the extracted remote context is valid, the span records the
remote trace id (rendered as 32 lowercase hex characters) and its parent is
the remote span id; when the remote context is invalid or absent, the span
records the freshly generated trace id - any nonzero 128-bit value, which
renders as 32 hex characters and is not the all-zero string - and has no
parent. -/
theorem make_span_trace_identity (self : AxumOtelSpanCreator) (req : Request)
    (freshTraceId : Nat) (h0 : freshTraceId ≠ 0)
    (h1 : freshTraceId < 2 ^ 128) :
    (∀ pc, (extract_context_from_headers req.headers).span = some pc →
        (self.make_span req freshTraceId).trace_id =
          some (renderHex 32 pc.trace_id) ∧
        (self.make_span req freshTraceId).parent_span_id = some pc.span_id) ∧
    ((extract_context_from_headers req.headers).span = none →
        (self.make_span req freshTraceId).trace_id =
          some (renderHex 32 freshTraceId) ∧
        (self.make_span req freshTraceId).parent_span_id = none ∧
        (renderHex 32 freshTraceId).length = 32 ∧
        (∀ b ∈ renderHex 32 freshTraceId, isLowerHexByte b) ∧
        renderHex 32 freshTraceId ≠ List.replicate 32 48) := by
  obtain ⟨l⟩ := self
  have htr : ∀ lvl : Level,
      ((AxumOtelSpanCreator.mk lvl).make_span req freshTraceId).trace_id =
        some (set_otel_parent freshTraceId
          (extract_context_from_headers req.headers)).trace_id := by
    intro lvl
    cases lvl <;> rfl
  have hpar : ∀ lvl : Level,
      ((AxumOtelSpanCreator.mk lvl).make_span req freshTraceId).parent_span_id =
        (set_otel_parent freshTraceId
          (extract_context_from_headers req.headers)).parent_span_id := by
    intro lvl
    cases lvl <;> rfl
  constructor
  · intro pc hpc
    have hval := extract_span_valid hpc
    have hso : set_otel_parent freshTraceId
        (extract_context_from_headers req.headers) =
        ⟨renderHex 32 pc.trace_id, some pc.span_id⟩ := by
      simp only [set_otel_parent, hpc, hval, if_true]
    rw [htr l, hpar l, hso]
    exact ⟨rfl, rfl⟩
  · intro hnone
    have hso : set_otel_parent freshTraceId
        (extract_context_from_headers req.headers) =
        ⟨renderHex 32 freshTraceId, none⟩ := by
      simp only [set_otel_parent, hnone]
    rw [htr l, hpar l, hso]
    exact ⟨rfl, rfl, renderHex_length 32 freshTraceId,
      renderHex_lower 32 freshTraceId,
      renderHex_ne_replicate h0 (by rwa [two_pow_128_eq] at h1)⟩

/-- C5 witness: a request whose traceparent is the undecodable string
`"invalid"` yields a root span carrying the injected fresh trace id 1,
rendered as 31 zeros followed by 1. -/
theorem make_span_trace_identity_example :
    (AxumOtelSpanCreator.new.make_span sampleInvalidRequest 1).trace_id =
      some (renderHex 32 1) ∧
    (AxumOtelSpanCreator.new.make_span sampleInvalidRequest 1).parent_span_id =
      none ∧
    (renderHex 32 1).length = 32 ∧
    (∀ b ∈ renderHex 32 1, isLowerHexByte b) ∧
    renderHex 32 1 ≠ List.replicate 32 48 :=
  (make_span_trace_identity AxumOtelSpanCreator.new sampleInvalidRequest 1
    (by decide) (by decide)).2 (by decide)
